import Mathlib

/-!
Shallow embedding of the forest repository's CAR storage engine slice:

* `src/db/car/plain.rs` — the plain CAR indexer and blockstore (`PlainCar`),
* `src/daemon/db_util.rs` — snapshot-import mode dispatch and the
  `populate_eth_mappings` backfill-range computation,
* `src/lotus_json/vec_u8.rs` — the `Vec<u8>` Lotus-JSON round-trip.

Byte sources are `List Nat` (one entry per byte) and a reader cursor is an
explicit position threaded through each function, mirroring
`positioned_io::Cursor`.  Fallible Rust code returning `io::Result` becomes
`Except ErrKind`; a Rust `panic!`/`unreachable!` is the distinguished
`ErrKind.panicked`.  File offsets are `u64` in Rust; they are modelled as
`Nat` with the `saturating_add` and `i64 as u64` casts made explicit
(`u64SatAdd`, `i64AsU64`), which agrees with the machine arithmetic for every
source shorter than `2^63` bytes — the regime of every theorem below that
depends on a concrete offset.
-/

namespace Forest

/-- A byte stream: one `Nat` per byte (values `< 256` in any well-formed
source; the embedding never relies on the bound). -/
abbrev Bytes := List Nat

/-- The `io::ErrorKind`s that the embedded code distinguishes, plus
`panicked` for Rust `panic!`/`unreachable!` aborts. -/
inductive ErrKind
  | invalidData
  | unexpectedEof
  | unsupported
  | panicked
deriving DecidableEq, Repr

/-- Read one byte at `pos` (the `read_fixedint::<u8>` / single-byte-probe
primitive); a read past the end of the source is `UnexpectedEof`. -/
def readByte (src : Bytes) (pos : Nat) : Except ErrKind (Nat × Nat) :=
  match src[pos]? with
  | some b => .ok (b, pos + 1)
  | none => .error .unexpectedEof

/-- Embeds `Read::read_exact` on a slice-backed cursor: `n` bytes starting at `pos`,
`UnexpectedEof` if fewer remain. -/
def readExact (src : Bytes) (pos n : Nat) : Except ErrKind (Bytes × Nat) :=
  if pos + n ≤ src.length then .ok ((src.drop pos).take n, pos + n)
  else .error .unexpectedEof

/-- Embeds `positioned_io::ReadAt::read_exact_at` on a slice: a positioned read that
never moves a cursor. -/
def readExactAt (src : Bytes) (offset length : Nat) : Except ErrKind Bytes :=
  if offset + length ≤ src.length then .ok ((src.drop offset).take length)
  else .error .unexpectedEof

/-- Little-endian bytes to an unsigned value. -/
def leBytesToNat (l : Bytes) : Nat := l.foldr (fun b acc => b + acc * 256) 0

/-- Reinterpret 8 little-endian bytes as an `i64` (two's complement), as
`integer_encoding::FixedIntReader::read_fixedint::<i64>` does. -/
def i64FromLE (l : Bytes) : Int :=
  if leBytesToNat l < 2 ^ 63 then (leBytesToNat l : Int) else (leBytesToNat l : Int) - 2 ^ 64

/-- The Rust `x as u64` cast of an `i64` value (two's complement
reinterpretation). -/
def i64AsU64 (x : Int) : Nat :=
  if 0 ≤ x then x.toNat else (2 ^ 64 + x).toNat

/-- Embeds `u64::saturating_add`. -/
def u64SatAdd (a b : Nat) : Nat := min (a + b) (2 ^ 64 - 1)

/-- Core loop of `integer_encoding::VarIntReader::read_varint`: unsigned
LEB128, at most `rem` further bytes.  Running out of budget is the
crate's InvalidData "Unterminated varint" error; end-of-stream inside the
varint is `UnexpectedEof`.  `shift` and `acc` accumulate the 7-bit groups. -/
def readUnsignedVarintAux (src : Bytes) : Nat → Nat → Nat → Nat → Except ErrKind (Nat × Nat)
  | 0, _, _, _ => .error .invalidData
  | rem + 1, pos, shift, acc =>
    match src[pos]? with
    | none => .error .unexpectedEof
    | some b =>
      if b < 128 then .ok (acc + b * 2 ^ shift, pos + 1)
      else readUnsignedVarintAux src rem (pos + 1) (shift + 7) (acc + (b % 128) * 2 ^ shift)

/-- Unsigned LEB128 varint at `pos`, reading at most `maxBytes` bytes
(`5` for a `u32` target, `10` for `usize`/`u64`, `9` for the
`unsigned_varint` reader used by the `cid` crate). -/
def readUnsignedVarint (src : Bytes) (pos maxBytes : Nat) : Except ErrKind (Nat × Nat) :=
  readUnsignedVarintAux src maxBytes pos 0 0

/-- A content identifier, as the `cid` crate represents it after parsing:
version, codec, and the wrapped multihash (code, size, digest).  The engine
treats CIDs as opaque values; only parsing and equality matter here. -/
structure Cid where
  version : Nat
  codec : Nat
  mhCode : Nat
  mhSize : Nat
  digest : Bytes
deriving DecidableEq, Repr

instance : Inhabited Cid := ⟨⟨0, 0, 0, 0, []⟩⟩

/-- Embeds `cid::Cid::read_bytes` (external `cid` crate, v0.11): varint version and
codec; the fixed `0x12 0x20` prefix denotes a CIDv0 (32-byte sha2-256,
dag-pb codec `0x70`); otherwise the version must be `1` and a multihash
follows (varint code, varint size bounded by 64, then `size` digest bytes).
Any malformed input is `InvalidData` after the caller's
`cid_error_to_io_error`; reads past end-of-stream are `UnexpectedEof`. -/
def Cid.read_bytes (src : Bytes) (pos : Nat) : Except ErrKind (Cid × Nat) :=
  match readUnsignedVarint src pos 9 with
  | .error e => .error e
  | .ok (version, p1) =>
    match readUnsignedVarint src p1 9 with
    | .error e => .error e
    | .ok (codec, p2) =>
      if version = 0x12 ∧ codec = 0x20 then
        match readExact src p2 32 with
        | .error e => .error e
        | .ok (digest, p3) => .ok (⟨0, 0x70, 0x12, 32, digest⟩, p3)
      else if version = 1 then
        match readUnsignedVarint src p2 9 with
        | .error e => .error e
        | .ok (mhCode, p3) =>
          match readUnsignedVarint src p3 9 with
          | .error e => .error e
          | .ok (mhSize, p4) =>
            if 64 < mhSize then .error .invalidData
            else
              match readExact src p4 mhSize with
              | .error e => .error e
              | .ok (digest, p5) => .ok (⟨1, codec, mhCode, mhSize, digest⟩, p5)
      else .error .invalidData

/-- The decoded CARv1 header (`crate::utils::db::car_stream::CarV1Header`):
`version: u64` and the root CIDs.  The decoder below rejects an empty root
list, so `roots` being a plain list here loses nothing. -/
structure CarV1Header where
  version : Nat
  roots : List Cid
deriving DecidableEq, Repr

instance : Inhabited CarV1Header := ⟨⟨0, []⟩⟩

/-- The decoded CARv2 header (`crate::utils::db::car_stream::CarV2Header`):
16 characteristic bytes and three little-endian signed 64-bit integers. -/
structure CarV2Header where
  characteristics : Bytes
  data_offset : Int
  data_size : Int
  index_offset : Int
deriving DecidableEq, Repr

/-- CBOR: decode the argument of an initial byte whose additional-information
field is `ai`, returning the value and the position after it (definite-length
forms only, big-endian extension bytes). -/
def cborArg (body : Bytes) (pos ai : Nat) : Option (Nat × Nat) :=
  if ai < 24 then some (ai, pos)
  else if ai = 24 then
    match readExact body pos 1 with
    | .ok (bs, p) => some (bs.foldl (fun acc b => acc * 256 + b) 0, p)
    | .error _ => none
  else if ai = 25 then
    match readExact body pos 2 with
    | .ok (bs, p) => some (bs.foldl (fun acc b => acc * 256 + b) 0, p)
    | .error _ => none
  else if ai = 26 then
    match readExact body pos 4 with
    | .ok (bs, p) => some (bs.foldl (fun acc b => acc * 256 + b) 0, p)
    | .error _ => none
  else if ai = 27 then
    match readExact body pos 8 with
    | .ok (bs, p) => some (bs.foldl (fun acc b => acc * 256 + b) 0, p)
    | .error _ => none
  else none

/-- Expect the literal bytes `pat` at `pos`. -/
def expectBytes (body : Bytes) (pos : Nat) (pat : Bytes) : Option Nat :=
  if (body.drop pos).take pat.length = pat ∧ pos + pat.length ≤ body.length
  then some (pos + pat.length) else none

/-- One element of the `roots` array: tag 42 (`0xd8 0x2a`), then a byte
string whose content is the multibase identity prefix `0x00` followed by the
CID's binary form, which must span the whole byte string. -/
def readRoot (body : Bytes) (pos : Nat) : Option (Cid × Nat) :=
  match expectBytes body pos [0xd8, 0x2a] with
  | none => none
  | some p1 =>
    match body[p1]? with
    | none => none
    | some ib =>
      if ib / 32 = 2 then
        match cborArg body (p1 + 1) (ib % 32) with
        | none => none
        | some (m, p2) =>
          if p2 + m ≤ body.length then
            match expectBytes body p2 [0x00] with
            | none => none
            | some p3 =>
              match Cid.read_bytes ((body.drop p2).take m) 1 with
              | .error _ => none
              | .ok (c, consumed) =>
                if consumed = m ∧ p3 ≤ body.length then some (c, p2 + m) else none
          else none
      else none

/-- The `roots` array elements, in order. -/
def readRoots (body : Bytes) : Nat → Nat → Option (List Cid × Nat)
  | 0, pos => some ([], pos)
  | n + 1, pos =>
    match readRoot body pos with
    | none => none
    | some (c, p1) =>
      match readRoots body n p1 with
      | none => none
      | some (cs, p2) => some (c :: cs, p2)

/-- Modelled from the spec: `from_slice_with_fallback::<CarV1Header>`
(`crate::utils::encoding`, not in this source slice, backed by
`serde_ipld_dagcbor`).  Per §4.A the frame body "decodes as a canonical map
with fields `version: u64` and `roots: [CID; ≥1]`"; canonically that is a
2-entry map with the key `"roots"` (an array of tag-42 CID byte strings)
before `"version"` (an unsigned integer), no bytes left over, and an empty
`roots` array rejected. -/
def decodeCarV1Header (body : Bytes) : Option CarV1Header :=
  match expectBytes body 0 [0xa2, 0x65, 0x72, 0x6f, 0x6f, 0x74, 0x73] with
  | none => none
  | some p1 =>
    match body[p1]? with
    | none => none
    | some ib =>
      if ib / 32 = 4 then
        match cborArg body (p1 + 1) (ib % 32) with
        | none => none
        | some (n, p2) =>
          match readRoots body n p2 with
          | none => none
          | some (roots, p3) =>
            match expectBytes body p3 [0x67, 0x76, 0x65, 0x72, 0x73, 0x69, 0x6f, 0x6e] with
            | none => none
            | some p4 =>
              match body[p4]? with
              | none => none
              | some ib2 =>
                if ib2 / 32 = 0 then
                  match cborArg body (p4 + 1) (ib2 % 32) with
                  | none => none
                  | some (v, p5) =>
                    if p5 = body.length ∧ 1 ≤ n then some ⟨v, roots⟩ else none
                else none
      else none

/-- Pragma bytes, see ipld.io/specs/transport/car/carv2. -/
def CAR_V2_PRAGMA : Bytes := [0xa1, 0x67, 0x76, 0x65, 0x72, 0x73, 0x69, 0x6f, 0x6e, 0x02]

/-- Embeds `read_v2_header` (src/db/car/plain.rs:340-363): one length byte; if it is
10 and the next 10 bytes are the CARv2 pragma, read the 16 characteristic
bytes and three fixed little-endian `i64`s; otherwise report "no v2 header".
No validation of the three signed fields is performed. -/
def read_v2_header (src : Bytes) (pos : Nat) : Except ErrKind (Option CarV2Header × Nat) :=
  match readByte src pos with
  | .error e => .error e
  | .ok (len, p1) =>
    if len = CAR_V2_PRAGMA.length then
      match readExact src p1 10 with
      | .error e => .error e
      | .ok (buffer, p2) =>
        if buffer = CAR_V2_PRAGMA then
          match readExact src p2 16 with
          | .error e => .error e
          | .ok (characteristics, p3) =>
            match readExact src p3 8 with
            | .error e => .error e
            | .ok (b1, p4) =>
              match readExact src p4 8 with
              | .error e => .error e
              | .ok (b2, p5) =>
                match readExact src p5 8 with
                | .error e => .error e
                | .ok (b3, p6) =>
                  .ok (some ⟨characteristics, i64FromLE b1, i64FromLE b2, i64FromLE b3⟩, p6)
        else .ok (none, p2)
    else .ok (none, p1)

/-- Embeds `read_v1_header` (src/db/car/plain.rs:372-386): a varint body length
(`usize` target, so up to 10 bytes and truncated to 64 bits), the body, the
DAG-CBOR decode (failure is `InvalidData`), and the version gate — anything
but version 1 is `Unsupported`. -/
def read_v1_header (src : Bytes) (pos : Nat) : Except ErrKind (CarV1Header × Nat) :=
  match readUnsignedVarint src pos 10 with
  | .error e => .error e
  | .ok (rawLen, p1) =>
    match readExact src p1 (rawLen % 2 ^ 64) with
    | .error e => .error e
    | .ok (body, p2) =>
      match decodeCarV1Header body with
      | none => .error .invalidData
      | some header =>
        if header.version = 1 then .ok (header, p2) else .error .unsupported

/-- Embeds `UncompressedBlockDataLocation` (src/db/car/plain.rs:219-222): the byte
window of a block payload (`offset: u64`, `length: u32`). -/
structure UncompressedBlockDataLocation where
  offset : Nat
  length : Nat
deriving DecidableEq, Repr

/-- Embeds `read_varint_body_length_or_eof` (src/db/car/plain.rs:447-454): probe one
byte to detect end-of-stream, then decode a `u32` varint (at most 5 bytes,
truncated to 32 bits) with the probed byte chained back in front. -/
def read_varint_body_length_or_eof (src : Bytes) (pos : Nat) :
    Except ErrKind (Option (Nat × Nat)) :=
  match src[pos]? with
  | none => .ok none
  | some _ =>
    match readUnsignedVarint src pos 5 with
    | .error e => .error e
    | .ok (raw, p1) => .ok (some (raw % 2 ^ 32, p1))

/-- Embeds `read_block_data_location_and_skip` (src/db/car/plain.rs:404-435):
stop at the v2 `limit_position` or at end-of-stream; otherwise read the body
length, parse the CID counting its bytes, and derive the block-data window
without reading the payload.  The unchecked `u64` subtraction feeding
`u32::try_from(..).unwrap()` aborts when the CID is longer than the frame
body, modelled as `ErrKind.panicked`. -/
def read_block_data_location_and_skip (src : Bytes) (pos : Nat) (limitPosition : Option Nat) :
    Except ErrKind (Option ((Cid × UncompressedBlockDataLocation) × Nat)) :=
  if (match limitPosition with | some l => decide (l ≤ pos) | none => false) then .ok none
  else
    match read_varint_body_length_or_eof src pos with
    | .error e => .error e
    | .ok none => .ok none
    | .ok (some (bodyLength, frameBodyOffset)) =>
      match Cid.read_bytes src frameBodyOffset with
      | .error e => .error e
      | .ok (c, pAfterCid) =>
        let cidLength := pAfterCid - frameBodyOffset
        let blockDataOffset := frameBodyOffset + cidLength
        let nextFrameOffset := frameBodyOffset + bodyLength
        if nextFrameOffset < blockDataOffset then .error .panicked
        else .ok (some ((c, ⟨blockDataOffset, nextFrameOffset - blockDataOffset⟩),
          nextFrameOffset))

/-- The indexing loop of `PlainCar::new` (src/db/car/plain.rs:151-154):
iterate `read_block_data_location_and_skip` until it reports end-of-stream,
collecting the `(cid, location)` pairs in stream order.  Each iteration
advances the cursor by at least one byte, so `src.length + 1` units of fuel
(what `PlainCar.new` passes) can never run out on a source the loop
terminates on; exhausted fuel is modelled as the unreachable `panicked`. -/
def scanFrames (src : Bytes) (limitPosition : Option Nat) :
    Nat → Nat → Except ErrKind (List (Cid × UncompressedBlockDataLocation))
  | 0, _ => .error .panicked
  | fuel + 1, pos =>
    match read_block_data_location_and_skip src pos limitPosition with
    | .error e => .error e
    | .ok none => .ok []
    | .ok (some (entry, pos1)) =>
      match scanFrames src limitPosition fuel pos1 with
      | .error e => .error e
      | .ok rest => .ok (entry :: rest)

/-- Insert a binding only when its key is absent. -/
def insertIfAbsent (m : List (Cid × UncompressedBlockDataLocation))
    (p : Cid × UncompressedBlockDataLocation) : List (Cid × UncompressedBlockDataLocation) :=
  match m.lookup p.1 with
  | some _ => m
  | none => m ++ [p]

/-- Modelled from the spec: the `collect::<CidHashMap<_>>` step of
`PlainCar::new` (src/db/car/plain.rs:151-154).  `CidHashMap`'s
`FromIterator` lives in `crate::cid_collections`, which is not in this
source slice; per §4.B "Duplicate CIDs in the source: first occurrence wins;
subsequent duplicates are silently dropped", so insertion keeps the first
binding of each key. -/
def collectFirstWins (l : List (Cid × UncompressedBlockDataLocation)) :
    List (Cid × UncompressedBlockDataLocation) :=
  l.foldl insertIfAbsent []

/-- The cursor set-up `PlainCar::new` performs after probing for a v2 header
(src/db/car/plain.rs:130-143): where the v1 stream starts, the optional
`limit_position`, and the reported version. -/
structure ScanSetup where
  startPos : Nat
  limitPosition : Option Nat
  version : Nat
deriving DecidableEq, Repr

/-- With a v2 header the cursor moves to `position.saturating_add(data_offset
as u64)` (the initial position is 0) and the limit is that position
`saturating_add data_size as u64`; without one the cursor rewinds to the
start and there is no limit. -/
def v2Setup : Option CarV2Header → ScanSetup
  | some h =>
    let s := u64SatAdd 0 (i64AsU64 h.data_offset)
    ⟨s, some (u64SatAdd s (i64AsU64 h.data_size)), 2⟩
  | none => ⟨0, none, 1⟩

/-- Everything `PlainCar::new` reads from the source before building the
index map: both headers, the version, and the indexed frames in stream
order. -/
structure OpenScanResult where
  header_v2 : Option CarV2Header
  header_v1 : CarV1Header
  version : Nat
  frames : List (Cid × UncompressedBlockDataLocation)
deriving DecidableEq, Repr

instance : Inhabited OpenScanResult := ⟨⟨none, default, 0, []⟩⟩

/-- The read phase of `PlainCar::new` (src/db/car/plain.rs:126-154): probe
the v2 header at position 0, position the cursor, read the v1 header, then
scan the block frames. -/
def openScan (src : Bytes) : Except ErrKind OpenScanResult :=
  match read_v2_header src 0 with
  | .error e => .error e
  | .ok (header_v2, _) =>
    match read_v1_header src (v2Setup header_v2).startPos with
    | .error e => .error e
    | .ok (header_v1, p3) =>
      match scanFrames src (v2Setup header_v2).limitPosition (src.length + 1) p3 with
      | .error e => .error e
      | .ok frames => .ok ⟨header_v2, header_v1, (v2Setup header_v2).version, frames⟩

/-- Embeds `PlainCar` (src/db/car/plain.rs:111-118).  The two `RwLock`ed maps are
association lists observed only through `List.lookup`; the single-threaded
operations below thread the whole structure as explicit state. -/
structure PlainCar where
  reader : Bytes
  write_cache : List (Cid × Bytes)
  index : List (Cid × UncompressedBlockDataLocation)
  version : Nat
  header_v1 : CarV1Header
  header_v2 : Option CarV2Header
deriving DecidableEq, Repr

instance : Inhabited PlainCar := ⟨⟨[], [], [], 0, default, none⟩⟩

/-- Embeds `PlainCar::new` (src/db/car/plain.rs:126-173): run the read phase,
collect the index, reject an archive with zero blocks as `InvalidData`, and
otherwise hand back the store with an empty write cache. -/
def PlainCar.new (src : Bytes) : Except ErrKind PlainCar :=
  match openScan src with
  | .error e => .error e
  | .ok r =>
    if (collectFirstWins r.frames).isEmpty then .error .invalidData
    else .ok ⟨src, [], collectFirstWins r.frames, r.version, r.header_v1, r.header_v2⟩

/-- Cache removal as observed through `lookup`: drop every binding of `k` (the maps never hold a
key twice, so this is the same single-entry removal the Rust map performs). -/
def eraseKey (m : List (Cid × Bytes)) (k : Cid) : List (Cid × Bytes) :=
  m.filter (fun p => p.1 ≠ k)

/-- Embeds `Blockstore::get` for `PlainCar` (src/db/car/plain.rs:229-250), single
threaded: index and cache hit evicts the cache entry and returns it (the
`remove` result); index-only reads `length` bytes at `offset` from the file;
cache-only clones the cached bytes; a double miss is `None`.  The result is
paired with the state after the call. -/
def PlainCar.get (car : PlainCar) (k : Cid) : Except ErrKind (Option Bytes) × PlainCar :=
  match car.index.lookup k, car.write_cache.lookup k with
  | some _, some _ =>
    (.ok (car.write_cache.lookup k), { car with write_cache := eraseKey car.write_cache k })
  | some location, none =>
    match readExactAt car.reader location.offset location.length with
    | .ok data => (.ok (some data), car)
    | .error e => (.error e, car)
  | none, some cached => (.ok (some cached), car)
  | none, none => (.ok none, car)

/-- Embeds `handle_write_cache` (src/db/car/plain.rs:297-324): matching on the index
lookup and the cache entry for `k` — equal cached bytes are a no-op,
different cached bytes abort the process, an absent key is inserted, a key
already on disk is a no-op, and a key in both maps is the `unreachable!`
abort.  Returns the new cache. -/
def handle_write_cache (write_cache : List (Cid × Bytes))
    (index : List (Cid × UncompressedBlockDataLocation)) (k : Cid) (block : Bytes) :
    Except ErrKind (List (Cid × Bytes)) :=
  match index.lookup k, write_cache.lookup k with
  | none, some already =>
    if already = block then .ok write_cache else .error .panicked
  | none, none => .ok ((k, block) :: write_cache)
  | some _, none => .ok write_cache
  | some _, some _ => .error .panicked

/-- Embeds `Blockstore::put_keyed` for `PlainCar` (src/db/car/plain.rs:259-263):
take both write locks and defer to `handle_write_cache`; the index is never
modified. -/
def PlainCar.put_keyed (car : PlainCar) (k : Cid) (block : Bytes) : Except ErrKind PlainCar :=
  match handle_write_cache car.write_cache car.index k block with
  | .error e => .error e
  | .ok cache => .ok { car with write_cache := cache }

/-- One single-threaded `Blockstore` call on a `PlainCar` handle. -/
inductive BlockstoreOp
  | get (k : Cid)
  | put (k : Cid) (block : Bytes)

/-- The state after one call: `get` always leaves its post-state, and a
`put_keyed` that panics aborts the process, leaving no further state to
observe (modelled as the unchanged state). -/
def applyOp (car : PlainCar) : BlockstoreOp → PlainCar
  | .get k => (car.get k).2
  | .put k block =>
    match car.put_keyed k block with
    | .ok car1 => car1
    | .error _ => car

/-- The state after a single-threaded sequence of calls. -/
def runOps (car : PlainCar) (ops : List BlockstoreOp) : PlainCar :=
  ops.foldl applyOp car

/-- §3's invariant: no CID is in both the index and the write cache. -/
def DisjointMaps (car : PlainCar) : Prop :=
  ∀ k : Cid, car.index.lookup k = none ∨ car.write_cache.lookup k = none

/-- Embeds `ImportMode` (src/daemon/db_util.rs:114-126). -/
inductive ImportMode
  | auto
  | copy
  | move
  | symlink
  | hardlink
deriving DecidableEq, Repr

/-- Outcomes of the external effects `import_chain_as_forest_car` dispatches
on, abstracted as an oracle (the filesystem and network are outside the
embedding): whether `Url::parse` accepts the source, whether
`ForestCar::is_valid` holds for the opened source file, whether the
`hard_link`/`symlink` syscalls succeed (with their errors), the result of
the `move_or_copy` closure for the mode it is invoked with, and the error of
the `bail!("Snapshot file must be a valid forest.car.zst file")` branches.
`ε` is the `anyhow::Error` type, left abstract. -/
structure ImportOutcomes (ε : Type) where
  isUrl : Bool
  validForestCar : Bool
  hardlinkOk : Bool
  symlinkOk : Bool
  moveOrCopyFlow : ImportMode → Except ε Unit
  hardlinkErr : ε
  symlinkErr : ε
  invalidSnapshotErr : ε

/-- The externally visible filesystem attempts of one dispatch, in order. -/
inductive ImportEvent
  | hardlinkCall
  | symlinkCall
  | moveOrCopyCall (mode : ImportMode)
deriving DecidableEq, Repr

/-- Embeds the mode dispatch of `import_chain_as_forest_car`
(src/daemon/db_util.rs:179-231) over the outcome oracle, returning the
result together with the ordered attempts.  `Auto` on a URL falls back to
the `Move` flow; on a local valid forest car it tries `hard_link` and, only
if that syscall fails, runs the `Copy` flow once, propagating that flow's
error; on any other local file it runs the `Copy` flow directly.  `Symlink`
and `Hardlink` demand a valid forest car and never fall back. -/
def import_chain_as_forest_car_dispatch {ε : Type} (env : ImportOutcomes ε) :
    ImportMode → Except ε Unit × List ImportEvent
  | .auto =>
    if env.isUrl then (env.moveOrCopyFlow .move, [.moveOrCopyCall .move])
    else if env.validForestCar then
      if env.hardlinkOk then (.ok (), [.hardlinkCall])
      else (env.moveOrCopyFlow .copy, [.hardlinkCall, .moveOrCopyCall .copy])
    else (env.moveOrCopyFlow .copy, [.moveOrCopyCall .copy])
  | .copy => (env.moveOrCopyFlow .copy, [.moveOrCopyCall .copy])
  | .move => (env.moveOrCopyFlow .move, [.moveOrCopyCall .move])
  | .symlink =>
    if env.validForestCar then
      ((if env.symlinkOk then .ok () else .error env.symlinkErr), [.symlinkCall])
    else (.error env.invalidSnapshotErr, [])
  | .hardlink =>
    if env.validForestCar then
      ((if env.hardlinkOk then .ok () else .error env.hardlinkErr), [.hardlinkCall])
    else (.error env.invalidSnapshotErr, [])

/-- Embeds `i64::saturating_sub` over mathematical integers. -/
def i64SatSub (a b : Int) : Int := max (-(2 ^ 63)) (min (2 ^ 63 - 1) (a - b))

/-- Embeds the `from_epoch` computation of `populate_eth_mappings`
(src/daemon/db_util.rs:300-307).  `envRange` stands for the value of
`std::env::var("FOREST_ETH_MAPPINGS_RANGE").ok().and_then(parse::<i64>().ok())`:
`none` when the variable is unset or does not parse as an `i64`. -/
def populate_eth_mappings_from_epoch (headEpoch hygge : Int) (envRange : Option Int) : Int :=
  match envRange with
  | some numEpochs => max (i64SatSub headEpoch numEpochs) hygge
  | none => hygge

/-- Embeds `HasLotusJson for Vec<u8>`'s `into_lotus_json`
(src/lotus_json/vec_u8.rs:38-43): the `VecU8LotusJson(Option<Inner>)`
wrapper is `Option Bytes`, with `none` the JSON `null`. -/
def into_lotus_json (v : Bytes) : Option Bytes :=
  if v.isEmpty then none else some v

/-- Embeds `HasLotusJson for Vec<u8>`'s `from_lotus_json`
(src/lotus_json/vec_u8.rs:45-50). -/
def from_lotus_json : Option Bytes → Bytes
  | some v => v
  | none => []

/-- A five-byte CIDv1 used by the concrete sources: raw codec `0x55`,
identity multihash, one-byte digest `0xaa`. -/
def cidABytes : Bytes := [0x01, 0x55, 0x00, 0x01, 0xaa]

/-- The parsed form of `cidABytes`. -/
def cidA : Cid := ⟨1, 0x55, 0x00, 1, [0xaa]⟩

/-- A second CIDv1 with digest `0xbb`. -/
def cidBBytes : Bytes := [0x01, 0x55, 0x00, 0x01, 0xbb]

/-- The parsed form of `cidBBytes`. -/
def cidB : Cid := ⟨1, 0x55, 0x00, 1, [0xbb]⟩

/-- Canonical DAG-CBOR body of a CARv1 header with root `cidA` and version
`v`: a 2-entry map, `"roots"` an array holding one tag-42 byte string
(`0x00` then the CID bytes), then `"version"`. -/
def carV1HeaderBody (v : Nat) : Bytes :=
  [0xa2, 0x65, 0x72, 0x6f, 0x6f, 0x74, 0x73,
   0x81, 0xd8, 0x2a, 0x46, 0x00] ++ cidABytes ++
  [0x67, 0x76, 0x65, 0x72, 0x73, 0x69, 0x6f, 0x6e, v]

/-- The header frame (varint length 26, then the body) for version `v`. -/
def carV1HeaderFrame (v : Nat) : Bytes := 26 :: carV1HeaderBody v

/-- A block frame holding `cidA` and the two payload bytes given. -/
def frameA (d0 d1 : Nat) : Bytes := 7 :: cidABytes ++ [d0, d1]

/-- A block frame holding `cidB` and payload `[1, 2]`. -/
def frameB : Bytes := 7 :: cidBBytes ++ [1, 2]

/-- A well-formed two-block CARv1 source. -/
def carV1Ex : Bytes := carV1HeaderFrame 1 ++ frameA 0xde 0xad ++ frameB

/-- A CARv1 source whose two block frames carry the same CID with different
payload bytes at different offsets. -/
def carV1Dup : Bytes := carV1HeaderFrame 1 ++ frameA 0xde 0xad ++ frameA 0xbe 0xef

/-- A CARv1 source whose header carries version 2 (and no v2 pragma). -/
def carV1BadVersion : Bytes := carV1HeaderFrame 2 ++ frameA 0xde 0xad

/-- A CARv2 source whose 40-byte header carries `data_offset = 51`,
`data_size = 35` and `index_offset = -1` (eight `0xff` bytes), wrapping a
valid one-block v1 payload. -/
def carV2NegIndexOffset : Bytes :=
  10 :: CAR_V2_PRAGMA ++
  List.replicate 16 0 ++
  [51, 0, 0, 0, 0, 0, 0, 0] ++
  [35, 0, 0, 0, 0, 0, 0, 0] ++
  List.replicate 8 0xff ++
  carV1HeaderFrame 1 ++ frameA 0xde 0xad

/-- A CARv2 source whose header carries `data_offset = -1`. -/
def carV2NegDataOffset : Bytes :=
  10 :: CAR_V2_PRAGMA ++
  List.replicate 16 0 ++
  List.replicate 8 0xff ++
  [0, 0, 0, 0, 0, 0, 0, 0] ++
  [0, 0, 0, 0, 0, 0, 0, 0]

/-- Extract the store `PlainCar.new` returns on a source it accepts. -/
def openedCar (src : Bytes) : PlainCar :=
  match PlainCar.new src with
  | .ok car => car
  | .error _ => default

/-- Extract the read-phase result on a source `openScan` accepts. -/
def openedScan (src : Bytes) : OpenScanResult :=
  match openScan src with
  | .ok r => r
  | .error _ => default

/-- Whether the source begins with the varint-framed CARv2 pragma, i.e. has
the 11 bytes `10 :: CAR_V2_PRAGMA` as a prefix. -/
def hasV2Pragma (src : Bytes) : Bool :=
  decide (src[0]? = some 10 ∧ (src.drop 1).take 10 = CAR_V2_PRAGMA)

/-- A concrete store state: `cidA` located at `(1, 2)` on disk and also held
by the write cache with bytes `[1, 2]`. -/
def carW : PlainCar := ⟨[9, 8, 7], [(cidA, [1, 2])], [(cidA, ⟨1, 2⟩)], 1, ⟨1, [cidA]⟩, none⟩

/-- A concrete store state with empty index and cache. -/
def carW4 : PlainCar := ⟨[], [], [], 1, ⟨1, [cidA]⟩, none⟩

/-- The state `carW4` reaches after `put_keyed cidA [1]`. -/
def carW4' : PlainCar := ⟨[], [(cidA, [1])], [], 1, ⟨1, [cidA]⟩, none⟩

/-- A concrete store state with `cidA` indexed and an empty cache. -/
def carW5 : PlainCar := ⟨[9, 8, 7], [], [(cidA, ⟨1, 2⟩)], 1, ⟨1, [cidA]⟩, none⟩

/-- Association-list lookup distributes over append. -/
theorem lookup_append {α : Type} (m₁ m₂ : List (Cid × α)) (k : Cid) :
    (m₁ ++ m₂).lookup k = (m₁.lookup k).or (m₂.lookup k) := by
  induction m₁ with
  | nil => simp [List.lookup]
  | cons p m₁ ih =>
    obtain ⟨a, b⟩ := p
    by_cases h : k = a
    · simp [List.lookup, h]
    · have hb : (k == a) = false := by simpa using h
      simp [List.lookup, hb, ih]

/-- Looking up in the first-wins fold: the accumulator's binding wins, and
otherwise the first matching pair of the stream is taken. -/
theorem lookup_foldl_insertIfAbsent (l : List (Cid × UncompressedBlockDataLocation))
    (m : List (Cid × UncompressedBlockDataLocation)) (k : Cid) :
    (l.foldl insertIfAbsent m).lookup k
      = (m.lookup k).or ((l.find? (fun p => p.1 == k)).map Prod.snd) := by
  induction l generalizing m with
  | nil => simp
  | cons p l ih =>
    obtain ⟨a, v⟩ := p
    rw [List.foldl_cons, ih]
    by_cases hk : a = k
    · subst hk
      match hm : m.lookup a with
      | some w => simp [insertIfAbsent, hm]
      | none => simp [insertIfAbsent, hm, lookup_append, List.lookup]
    · have hfind : List.find? (fun p => p.1 == k) ((a, v) :: l)
          = List.find? (fun p => p.1 == k) l := by
        simp [List.find?_cons, hk]
      rw [hfind]
      match hm : m.lookup a with
      | some w => simp [insertIfAbsent, hm]
      | none =>
        simp only [insertIfAbsent, hm, lookup_append, List.lookup]
        have : (k == a) = false := by simp [Ne.symm hk]
        simp [this]

/-- The index built by `collectFirstWins` maps every CID to the location of
its first occurrence in the frame stream, and holds nothing else. -/
theorem lookup_collectFirstWins (l : List (Cid × UncompressedBlockDataLocation)) (k : Cid) :
    (collectFirstWins l).lookup k = (l.find? (fun p => p.1 == k)).map Prod.snd := by
  rw [collectFirstWins, lookup_foldl_insertIfAbsent]
  simp [List.lookup]

/-- Removing a key from the cache removes its binding. -/
theorem lookup_eraseKey_self (m : List (Cid × Bytes)) (k : Cid) :
    (eraseKey m k).lookup k = none := by
  induction m with
  | nil => simp [eraseKey]
  | cons p m ih =>
    obtain ⟨a, b⟩ := p
    rw [eraseKey, List.filter_cons]
    by_cases h : a = k
    · have hcond : decide ((a, b).1 ≠ k) = false := by simp [h]
      rw [hcond]
      simpa [eraseKey] using ih
    · have hcond : decide ((a, b).1 ≠ k) = true := by simp [h]
      rw [hcond]
      have hk : (k == a) = false := by simpa using Ne.symm h
      simpa [eraseKey, List.lookup, hk] using ih

/-- A `put_keyed` call never modifies the index, the reader, or the headers. -/
theorem put_keyed_preserves_rest (car car1 : PlainCar) (k : Cid) (block : Bytes)
    (h : car.put_keyed k block = .ok car1) :
    car1.index = car.index ∧ car1.reader = car.reader ∧ car1.version = car.version ∧
      car1.header_v1 = car.header_v1 ∧ car1.header_v2 = car.header_v2 := by
  unfold PlainCar.put_keyed at h
  split at h
  · cases h
  · cases h
    exact ⟨rfl, rfl, rfl, rfl, rfl⟩

/-- After a successful `put_keyed` of `(k, block)` with `k` absent from the
index, the cache binds `k` to `block`. -/
theorem put_keyed_cache_lookup (car car1 : PlainCar) (k : Cid) (block : Bytes)
    (hidx : car.index.lookup k = none)
    (h : car.put_keyed k block = .ok car1) :
    car1.write_cache.lookup k = some block := by
  unfold PlainCar.put_keyed handle_write_cache at h
  rw [hidx] at h
  match hc : car.write_cache.lookup k with
  | some already =>
    rw [hc] at h
    by_cases he : already = block
    · simp only [he, if_pos rfl] at h
      cases h
      simpa [he] using hc
    · simp [he] at h
  | none =>
    rw [hc] at h
    cases h
    simp [List.lookup]

/-- Branch lemma: `put_keyed` of a CID absent from both maps inserts it into
the cache. -/
theorem put_keyed_insert (car : PlainCar) (k : Cid) (b : Bytes)
    (hidx : car.index.lookup k = none) (hc : car.write_cache.lookup k = none) :
    car.put_keyed k b = .ok { car with write_cache := (k, b) :: car.write_cache } := by
  have harm : handle_write_cache car.write_cache car.index k b
      = .ok ((k, b) :: car.write_cache) := by
    unfold handle_write_cache
    rw [hidx, hc]
  unfold PlainCar.put_keyed
  rw [harm]

/-- Branch lemma: `put_keyed` of bytes already cached under the same CID
(absent from the index) is a no-op. -/
theorem put_keyed_same_bytes_noop (car : PlainCar) (k : Cid) (b : Bytes)
    (hidx : car.index.lookup k = none) (hc : car.write_cache.lookup k = some b) :
    car.put_keyed k b = .ok car := by
  have harm : handle_write_cache car.write_cache car.index k b = .ok car.write_cache := by
    unfold handle_write_cache
    rw [hidx, hc]
    exact if_pos rfl
  unfold PlainCar.put_keyed
  rw [harm]

/-- Branch lemma: `put_keyed` of a CID the index already holds (and the cache
does not) is a no-op. -/
theorem put_keyed_index_hit (car : PlainCar) (k : Cid) (b : Bytes)
    (location : UncompressedBlockDataLocation)
    (hidx : car.index.lookup k = some location) (hc : car.write_cache.lookup k = none) :
    car.put_keyed k b = .ok car := by
  have harm : handle_write_cache car.write_cache car.index k b = .ok car.write_cache := by
    unfold handle_write_cache
    rw [hidx, hc]
  unfold PlainCar.put_keyed
  rw [harm]

/-- One single-threaded call preserves index/cache disjointness. -/
theorem applyOp_disjoint (car : PlainCar) (op : BlockstoreOp)
    (h : DisjointMaps car) : DisjointMaps (applyOp car op) := by
  match op with
  | .get k =>
    show DisjointMaps (car.get k).2
    rcases hi : car.index.lookup k with _ | l <;>
      rcases hc : car.write_cache.lookup k with _ | c <;>
      simp only [PlainCar.get, hi, hc]
    · exact h
    · exact h
    · split <;> exact h
    · exact absurd (h k) (by simp [hi, hc])
  | .put k block =>
    show DisjointMaps (match car.put_keyed k block with
      | .ok car1 => car1
      | .error _ => car)
    rcases hp : car.put_keyed k block with e | car1
    · exact h
    · unfold PlainCar.put_keyed handle_write_cache at hp
      rcases hi : car.index.lookup k with _ | l <;>
        rcases hc : car.write_cache.lookup k with _ | c <;>
        simp only [hi, hc] at hp
      · cases hp
        intro k'
        by_cases hk : k' = k
        · subst hk
          exact Or.inl hi
        · rcases h k' with h' | h'
          · exact Or.inl h'
          · refine Or.inr ?_
            have hb : (k' == k) = false := by simpa using hk
            simpa [List.lookup, hb] using h'
      · by_cases he : c = block
        · rw [if_pos he] at hp
          cases hp
          exact h
        · rw [if_neg he] at hp
          cases hp
      · cases hp
        exact h
      · cases hp

/-- Disjointness is preserved by any single-threaded call sequence. -/
theorem runOps_disjoint (car : PlainCar) (ops : List BlockstoreOp)
    (h : DisjointMaps car) : DisjointMaps (runOps car ops) := by
  induction ops generalizing car with
  | nil => exact h
  | cons op ops ih => exact ih _ (applyOp_disjoint car op h)

/-- Inversion of a successful `readExact`. -/
theorem readExact_ok (src : Bytes) (pos n : Nat) (bs : Bytes) (p : Nat)
    (h : readExact src pos n = .ok (bs, p)) :
    bs = (src.drop pos).take n ∧ p = pos + n ∧ pos + n ≤ src.length := by
  unfold readExact at h
  by_cases hle : pos + n ≤ src.length
  · rw [if_pos hle] at h
    cases h
    exact ⟨rfl, rfl, hle⟩
  · rw [if_neg hle] at h
    cases h

/-- A varint read that starts at or past the end of the source reports
`UnexpectedEof`. -/
theorem readUnsignedVarintAux_eof (src : Bytes) (rem pos shift acc : Nat)
    (hpos : src.length ≤ pos) (hrem : rem ≠ 0) :
    readUnsignedVarintAux src rem pos shift acc = .error .unexpectedEof := by
  cases rem with
  | zero => exact absurd rfl hrem
  | succ r =>
    have hnone : src[pos]? = none := List.getElem?_eq_none hpos
    simp [readUnsignedVarintAux, hnone]

/-- Reading the v1 header at or past the end of the source reports
`UnexpectedEof`. -/
theorem read_v1_header_eof (src : Bytes) (pos : Nat) (hpos : src.length ≤ pos) :
    read_v1_header src pos = .error .unexpectedEof := by
  unfold read_v1_header readUnsignedVarint
  rw [readUnsignedVarintAux_eof src 10 pos 0 0 hpos (by decide)]

/-- A negative decoded `i64` reinterprets, under `as u64`, as a value in the
upper half of the `u64` range. -/
theorem i64AsU64_i64FromLE_neg (l : Bytes) (hx : i64FromLE l < 0) :
    2 ^ 63 ≤ i64AsU64 (i64FromLE l) ∧ i64AsU64 (i64FromLE l) < 2 ^ 64 := by
  unfold i64FromLE at hx ⊢
  by_cases hu : leBytesToNat l < 2 ^ 63
  · rw [if_pos hu] at hx
    exact absurd hx (by omega)
  · rw [if_neg hu] at hx ⊢
    unfold i64AsU64
    rw [if_neg (by omega)]
    omega

/-- Inversion of `read_v2_header` succeeding with a header: the source starts
with the pragma and the header fields are exactly the decoded bytes — no
further validation happens. -/
theorem read_v2_header_ok_some_inv (src : Bytes) (h : CarV2Header) (p : Nat)
    (hv : read_v2_header src 0 = .ok (some h, p)) :
    src[0]? = some 10 ∧ (src.drop 1).take 10 = CAR_V2_PRAGMA ∧
    h.characteristics = (src.drop 11).take 16 ∧
    h.data_offset = i64FromLE ((src.drop 27).take 8) ∧
    h.data_size = i64FromLE ((src.drop 35).take 8) ∧
    h.index_offset = i64FromLE ((src.drop 43).take 8) ∧
    p = 51 ∧ 51 ≤ src.length := by
  unfold read_v2_header readByte at hv
  rcases h0 : src[0]? with _ | b <;> simp only [h0, Nat.zero_add] at hv
  · cases hv
  · by_cases hb : b = CAR_V2_PRAGMA.length
    · rw [if_pos hb] at hv
      rcases he1 : readExact src 1 10 with e | ⟨buf, p2⟩ <;> simp only [he1] at hv
      · cases hv
      · obtain ⟨hbuf, hp2, -⟩ := readExact_ok src 1 10 buf p2 he1
        by_cases hbp : buf = CAR_V2_PRAGMA
        · rw [if_pos hbp] at hv
          subst hp2
          rcases he2 : readExact src (1 + 10) 16 with e | ⟨ch, p3⟩ <;> simp only [he2] at hv
          · cases hv
          · obtain ⟨hch, hp3, -⟩ := readExact_ok src (1 + 10) 16 ch p3 he2
            subst hp3
            rcases he3 : readExact src (1 + 10 + 16) 8 with e | ⟨f1, p4⟩ <;>
              simp only [he3] at hv
            · cases hv
            · obtain ⟨hf1, hp4, -⟩ := readExact_ok src (1 + 10 + 16) 8 f1 p4 he3
              subst hp4
              rcases he4 : readExact src (1 + 10 + 16 + 8) 8 with e | ⟨f2, p5⟩ <;>
                simp only [he4] at hv
              · cases hv
              · obtain ⟨hf2, hp5, -⟩ := readExact_ok src (1 + 10 + 16 + 8) 8 f2 p5 he4
                subst hp5
                rcases he5 : readExact src (1 + 10 + 16 + 8 + 8) 8 with e | ⟨f3, p6⟩ <;>
                  simp only [he5] at hv
                · cases hv
                · obtain ⟨hf3, hp6, hle⟩ :=
                    readExact_ok src (1 + 10 + 16 + 8 + 8) 8 f3 p6 he5
                  subst hp6
                  cases hv
                  refine ⟨?_, ?_, ?_, ?_, ?_, ?_, ?_, ?_⟩
                  · rw [hb]
                    rfl
                  · rw [← hbuf, hbp]
                  · rw [hch]
                  · rw [hf1]
                  · rw [hf2]
                  · rw [hf3]
                  · rfl
                  · omega
        · rw [if_neg hbp] at hv
          cases hv
    · rw [if_neg hb] at hv
      cases hv

/-- A `read_v2_header` success with a header implies the pragma prefix. -/
theorem read_v2_header_some_pragma (src : Bytes) (h : CarV2Header) (p : Nat)
    (hv : read_v2_header src 0 = .ok (some h, p)) : hasV2Pragma src = true := by
  obtain ⟨h0, hbuf, -⟩ := read_v2_header_ok_some_inv src h p hv
  have hbuf2 : List.take 10 (List.tail src) = CAR_V2_PRAGMA := by
    rw [← List.drop_one]
    exact hbuf
  simp [hasV2Pragma, h0, hbuf2]

/-- A `read_v2_header` success without a header implies the pragma prefix is
absent. -/
theorem read_v2_header_none_no_pragma (src : Bytes) (p : Nat)
    (hv : read_v2_header src 0 = .ok (none, p)) : hasV2Pragma src = false := by
  unfold read_v2_header readByte at hv
  rcases h0 : src[0]? with _ | b <;> simp only [h0, Nat.zero_add] at hv
  · cases hv
  · by_cases hb : b = CAR_V2_PRAGMA.length
    · rw [if_pos hb] at hv
      rcases he1 : readExact src 1 10 with e | ⟨buf, p2⟩ <;> simp only [he1] at hv
      · cases hv
      · obtain ⟨hbuf, hp2, -⟩ := readExact_ok src 1 10 buf p2 he1
        by_cases hbp : buf = CAR_V2_PRAGMA
        · rw [if_pos hbp] at hv
          rcases he2 : readExact src p2 16 with e | ⟨ch, p3⟩ <;> simp only [he2] at hv
          · cases hv
          · rcases he3 : readExact src p3 8 with e | ⟨f1, p4⟩ <;> simp only [he3] at hv
            · cases hv
            · rcases he4 : readExact src p4 8 with e | ⟨f2, p5⟩ <;> simp only [he4] at hv
              · cases hv
              · rcases he5 : readExact src p5 8 with e | ⟨f3, p6⟩ <;> simp only [he5] at hv
                · cases hv
                · cases hv
        · simp only [hasV2Pragma, decide_eq_false_iff_not]
          intro hcontra
          exact hbp (hbuf.trans hcontra.2)
    · simp only [hasV2Pragma, decide_eq_false_iff_not]
      intro hcontra
      have hb10 : b = 10 := by
        have := hcontra.1
        rw [h0] at this
        exact Option.some.inj this
      refine hb ?_
      rw [hb10]
      rfl

/-- C2: on a `PlainCar` whose index locates `k` at `(offset, length)` and
whose write cache also holds bytes for `k`, a single-threaded `get k`
returns the cached bytes, removes `k` from the write cache and leaves the
index untouched; the next `get k` (whenever the indexed window lies inside
the file) returns the `length` bytes read from the file at `offset`. -/
theorem get_evicts_then_reads_disk (car : PlainCar) (k : Cid)
    (location : UncompressedBlockDataLocation) (cached : Bytes)
    (hidx : car.index.lookup k = some location)
    (hcache : car.write_cache.lookup k = some cached) :
    (car.get k).1 = .ok (some cached) ∧
    ((car.get k).2).write_cache.lookup k = none ∧
    ((car.get k).2).index = car.index ∧
    (location.offset + location.length ≤ car.reader.length →
      (((car.get k).2).get k).1
        = .ok (some ((car.reader.drop location.offset).take location.length))) := by
  refine ⟨?_, ?_, ?_, ?_⟩
  · simp only [PlainCar.get, hidx, hcache]
  · simp only [PlainCar.get, hidx, hcache]
    exact lookup_eraseKey_self car.write_cache k
  · simp only [PlainCar.get, hidx, hcache]
  · intro hin
    simp only [PlainCar.get, hidx, hcache, lookup_eraseKey_self]
    rw [readExactAt, if_pos hin]

/-- C3: from any store `PlainCar::new` hands back (whose write cache starts
empty), no single-threaded sequence of `get` and `put_keyed` calls can ever
put a CID in both the index and the write cache. -/
theorem index_cache_disjoint_invariant (src : Bytes) (car : PlainCar)
    (ops : List BlockstoreOp) (hnew : PlainCar.new src = .ok car) :
    DisjointMaps (runOps car ops) := by
  have hcache : car.write_cache = [] := by
    unfold PlainCar.new at hnew
    rcases ho : openScan src with e | r <;> simp only [ho] at hnew
    · cases hnew
    · by_cases hempty : (collectFirstWins r.frames).isEmpty = true
      · rw [if_pos hempty] at hnew
        cases hnew
      · rw [if_neg hempty] at hnew
        cases hnew
        rfl
  exact runOps_disjoint car ops (fun k => Or.inr (by rw [hcache]; rfl))

/-- C4: with `k` absent from the index, once `put_keyed k b1` has succeeded,
a second `put_keyed k b2` with different bytes hits the "mismatched content
on second write" panic, while a second write of the same bytes stays on the
no-op branch. -/
theorem put_keyed_mismatched_second_write_panics (car car1 : PlainCar) (k : Cid)
    (b1 b2 : Bytes) (hidx : car.index.lookup k = none)
    (h1 : car.put_keyed k b1 = .ok car1) :
    (b1 ≠ b2 → car1.put_keyed k b2 = .error .panicked) ∧
    car1.put_keyed k b1 = .ok car1 := by
  obtain ⟨hidx1, -, -, -, -⟩ := put_keyed_preserves_rest car car1 k b1 h1
  have hc1 : car1.write_cache.lookup k = some b1 := put_keyed_cache_lookup car car1 k b1 hidx h1
  have hidx1' : car1.index.lookup k = none := by rw [hidx1, hidx]
  constructor
  · intro hne
    simp only [PlainCar.put_keyed, handle_write_cache, hidx1', hc1, if_neg hne]
  · exact put_keyed_same_bytes_noop car1 k b1 hidx1' hc1

/-- C5: a successful `put_keyed k b` is idempotent — repeating it succeeds
and leaves the whole store (index and write cache included) unchanged — and
`put_keyed` on a CID held by the index (and, per the C3 invariant, then
absent from the cache) is a no-op. -/
theorem put_keyed_idempotent :
    (∀ (car car1 : PlainCar) (k : Cid) (b : Bytes),
      car.put_keyed k b = .ok car1 → car1.put_keyed k b = .ok car1) ∧
    (∀ (car : PlainCar) (k : Cid) (b : Bytes) (location : UncompressedBlockDataLocation),
      car.index.lookup k = some location → car.write_cache.lookup k = none →
      car.put_keyed k b = .ok car) := by
  constructor
  · intro car car1 k b h1
    rcases hi : car.index.lookup k with _ | l
    · rcases hc : car.write_cache.lookup k with _ | c
      · rw [put_keyed_insert car k b hi hc] at h1
        cases h1
        refine put_keyed_same_bytes_noop _ k b hi ?_
        show List.lookup k ((k, b) :: car.write_cache) = some b
        simp [List.lookup]
      · by_cases he : c = b
        · subst he
          rw [put_keyed_same_bytes_noop car k c hi hc] at h1
          cases h1
          exact put_keyed_same_bytes_noop car k c hi hc
        · unfold PlainCar.put_keyed handle_write_cache at h1
          simp only [hi, hc, if_neg he] at h1
          cases h1
    · rcases hc : car.write_cache.lookup k with _ | c
      · rw [put_keyed_index_hit car k b l hi hc] at h1
        cases h1
        exact put_keyed_index_hit car k b l hi hc
      · unfold PlainCar.put_keyed handle_write_cache at h1
        simp only [hi, hc] at h1
        cases h1
  · intro car k b location hidx hcache
    exact put_keyed_index_hit car k b location hidx hcache

/-- C8: in `Auto` mode on a local file that is a valid forest car, the
importer attempts the hardlink first; when the syscall succeeds nothing else
runs, and when it fails the importer falls back exactly once to the `Copy`
flow — never the `Move` flow — and reports that flow's result. -/
theorem auto_import_falls_back_to_copy_once {ε : Type} (env : ImportOutcomes ε)
    (hlocal : env.isUrl = false) (hvalid : env.validForestCar = true) :
    (env.hardlinkOk = true →
      import_chain_as_forest_car_dispatch env .auto = (.ok (), [.hardlinkCall])) ∧
    (env.hardlinkOk = false →
      import_chain_as_forest_car_dispatch env .auto
          = (env.moveOrCopyFlow .copy, [.hardlinkCall, .moveOrCopyCall .copy]) ∧
        ImportEvent.moveOrCopyCall .move ∉ (import_chain_as_forest_car_dispatch env .auto).2) := by
  constructor
  · intro hh
    simp [import_chain_as_forest_car_dispatch, hlocal, hvalid, hh]
  · intro hh
    constructor
    · simp [import_chain_as_forest_car_dispatch, hlocal, hvalid, hh]
    · simp [import_chain_as_forest_car_dispatch, hlocal, hvalid, hh]

/-- A concrete outcome oracle: local source, valid forest car, failing
hardlink, `move_or_copy` failing with error `7`. -/
def importEnvEx : ImportOutcomes Nat :=
  ⟨false, true, false, true, fun _ => .error 7, 1, 2, 3⟩

/-- Witness for C8 at `importEnvEx`. -/
theorem auto_import_falls_back_to_copy_once_witness :
    import_chain_as_forest_car_dispatch importEnvEx .auto
        = (.error 7, [.hardlinkCall, .moveOrCopyCall .copy]) ∧
      ImportEvent.moveOrCopyCall .move
        ∉ (import_chain_as_forest_car_dispatch importEnvEx .auto).2 := by
  have h := (auto_import_falls_back_to_copy_once importEnvEx rfl rfl).2 rfl
  exact ⟨h.1.trans (by rfl), h.2⟩

/-- C9: with `FOREST_ETH_MAPPINGS_RANGE` parsing as `n`, the backfill starts
at `max (headEpoch - n) hygge` (exactly, whenever the difference stays in
`i64` range); when unset or unparsable it starts at the Hygge epoch; and the
start epoch never lies below Hygge. -/
theorem eth_mappings_backfill_range (headEpoch hygge n : Int) :
    (-(2 ^ 63) ≤ headEpoch - n → headEpoch - n ≤ 2 ^ 63 - 1 →
      populate_eth_mappings_from_epoch headEpoch hygge (some n) = max (headEpoch - n) hygge) ∧
    populate_eth_mappings_from_epoch headEpoch hygge none = hygge ∧
    ∀ envRange : Option Int, hygge ≤ populate_eth_mappings_from_epoch headEpoch hygge envRange := by
  refine ⟨?_, rfl, ?_⟩
  · intro h1 h2
    show max (i64SatSub headEpoch n) hygge = max (headEpoch - n) hygge
    unfold i64SatSub
    rw [min_eq_right h2, max_eq_right h1]
  · intro envRange
    cases envRange with
    | none => exact le_refl hygge
    | some m => exact le_max_right _ _

/-- Witness for C9 at head epoch 100, Hygge 10, range 50. -/
theorem eth_mappings_backfill_range_witness :
    populate_eth_mappings_from_epoch 100 10 (some 50) = max (100 - 50 : Int) 10 ∧
    populate_eth_mappings_from_epoch 100 10 none = 10 :=
  ⟨(eth_mappings_backfill_range 100 10 50).1 (by norm_num) (by norm_num),
    (eth_mappings_backfill_range 100 10 50).2.1⟩

/-- C10: the Lotus-JSON representation of byte vectors round-trips, with the
empty vector travelling through the JSON `null` (`none`) form. -/
theorem vec_u8_lotus_json_roundtrip (v : Bytes) :
    from_lotus_json (into_lotus_json v) = v ∧
    into_lotus_json ([] : Bytes) = none ∧ from_lotus_json none = ([] : Bytes) := by
  refine ⟨?_, rfl, rfl⟩
  cases v with
  | nil => rfl
  | cons b bs => rfl

/-- C1: on any source `PlainCar::new` accepts, the index maps every CID to
the `(offset, length)` of its first occurrence in the frame stream — the
first matching frame of the scan — and duplicate frames leave no trace. -/
theorem first_occurrence_wins_in_index (src : Bytes) (car : PlainCar) (r : OpenScanResult)
    (hnew : PlainCar.new src = .ok car) (hscan : openScan src = .ok r) (k : Cid) :
    car.index.lookup k = (r.frames.find? (fun p => p.1 == k)).map Prod.snd := by
  unfold PlainCar.new at hnew
  simp only [hscan] at hnew
  by_cases hempty : (collectFirstWins r.frames).isEmpty = true
  · rw [if_pos hempty] at hnew
    cases hnew
  · rw [if_neg hempty] at hnew
    cases hnew
    exact lookup_collectFirstWins r.frames k

/-- Witness for C1 on `carV1Dup`, whose scan yields the same CID twice: the
index keeps the first location `(33, 2)` and discards `(41, 2)`. -/
theorem first_occurrence_wins_in_index_witness :
    (openedScan carV1Dup).frames = [(cidA, ⟨33, 2⟩), (cidA, ⟨41, 2⟩)] ∧
    (openedCar carV1Dup).index.lookup cidA = some ⟨33, 2⟩ := by
  have h := first_occurrence_wins_in_index carV1Dup (openedCar carV1Dup)
    (openedScan carV1Dup) (by rfl) (by rfl) cidA
  exact ⟨by rfl, h.trans (by rfl)⟩

/-- Witness for C2 on `carW`: the first `get` returns the cached `[1, 2]`,
the second returns the on-disk `[8, 7]`. -/
theorem get_evicts_then_reads_disk_witness :
    (carW.get cidA).1 = .ok (some [1, 2]) ∧
    (((carW.get cidA).2).get cidA).1 = .ok (some [8, 7]) := by
  have h := get_evicts_then_reads_disk carW cidA ⟨1, 2⟩ [1, 2] (by rfl) (by rfl)
  exact ⟨h.1, (h.2.2.2 (by decide)).trans (by rfl)⟩

/-- Witness for C3: a freshly opened `carV1Ex` keeps the invariant across a
concrete call sequence. -/
theorem index_cache_disjoint_invariant_witness :
    DisjointMaps (runOps (openedCar carV1Ex)
      [.put cidB [1], .get cidA, .put ⟨1, 0x55, 0, 1, [0xcc]⟩ [5], .get cidB]) :=
  index_cache_disjoint_invariant carV1Ex (openedCar carV1Ex)
    [.put cidB [1], .get cidA, .put ⟨1, 0x55, 0, 1, [0xcc]⟩ [5], .get cidB] (by rfl)

/-- Witness for C4: after `carW4.put_keyed cidA [1]`, writing `[2]` panics
and writing `[1]` again does not. -/
theorem put_keyed_mismatched_second_write_panics_witness :
    carW4'.put_keyed cidA [2] = .error .panicked ∧
    carW4'.put_keyed cidA [1] = .ok carW4' := by
  have h := put_keyed_mismatched_second_write_panics carW4 carW4' cidA [1] [2]
    (by rfl) (by rfl)
  exact ⟨h.1 (by decide), h.2⟩

/-- Witness for C5: the repeated write on `carW4'` and the index-hit no-op on
`carW5`. -/
theorem put_keyed_idempotent_witness :
    carW4'.put_keyed cidA [1] = .ok carW4' ∧
    carW5.put_keyed cidA [3] = .ok carW5 :=
  ⟨put_keyed_idempotent.1 carW4 carW4' cidA [1] (by rfl),
    put_keyed_idempotent.2 carW5 cidA [3] ⟨1, 2⟩ (by rfl) (by rfl)⟩

/-- C6 counterexample: `carV2NegIndexOffset` begins with the CARv2 pragma
and its header carries the negative `index_offset = -1`, yet `PlainCar.new`
succeeds — it does not fail, let alone with `InvalidData` as claimed. -/
theorem v2_negative_index_offset_opens_ok :
    (openedScan carV2NegIndexOffset).header_v2
        = some ⟨List.replicate 16 0, 51, 35, -1⟩ ∧
    PlainCar.new carV2NegIndexOffset = .ok (openedCar carV2NegIndexOffset) ∧
    PlainCar.new carV2NegIndexOffset ≠ .error .invalidData := by
  refine ⟨by rfl, by rfl, ?_⟩
  intro h
  rw [show PlainCar.new carV2NegIndexOffset = .ok (openedCar carV2NegIndexOffset)
    from rfl] at h
  cases h

/-- C6 amended: `read_v2_header` performs no sign validation — its three
signed fields are exactly the bytes it decoded, whatever their sign (so a
negative `index_offset`, which nothing ever reads, cannot make open fail) —
and a negative `data_offset` makes `PlainCar::new` fail with
`UnexpectedEof` from the out-of-range header read, not `InvalidData`. -/
theorem v2_header_fields_not_validated :
    (∀ (src : Bytes) (h : CarV2Header) (p : Nat),
      read_v2_header src 0 = .ok (some h, p) →
        h.data_offset = i64FromLE ((src.drop 27).take 8) ∧
        h.data_size = i64FromLE ((src.drop 35).take 8) ∧
        h.index_offset = i64FromLE ((src.drop 43).take 8)) ∧
    (∀ (src : Bytes) (h : CarV2Header) (p : Nat),
      read_v2_header src 0 = .ok (some h, p) → h.data_offset < 0 →
      src.length ≤ 2 ^ 63 → PlainCar.new src = .error .unexpectedEof) := by
  constructor
  · intro src h p hv
    obtain ⟨-, -, -, h1, h2, h3, -, -⟩ := read_v2_header_ok_some_inv src h p hv
    exact ⟨h1, h2, h3⟩
  · intro src h p hv hneg hlen
    obtain ⟨-, -, -, hdo, -, -, -, -⟩ := read_v2_header_ok_some_inv src h p hv
    have hb : 2 ^ 63 ≤ i64AsU64 h.data_offset ∧ i64AsU64 h.data_offset < 2 ^ 64 := by
      rw [hdo] at hneg ⊢
      exact i64AsU64_i64FromLE_neg _ hneg
    have hstart : (v2Setup (some h)).startPos = i64AsU64 h.data_offset := by
      show u64SatAdd 0 (i64AsU64 h.data_offset) = i64AsU64 h.data_offset
      unfold u64SatAdd
      omega
    have hr1 : read_v1_header src (v2Setup (some h)).startPos = .error .unexpectedEof := by
      apply read_v1_header_eof
      rw [hstart]
      omega
    unfold PlainCar.new openScan
    simp only [hv, hr1]

/-- Witness for the amended C6: the field inversion at `carV2NegIndexOffset`
and the `UnexpectedEof` failure at `carV2NegDataOffset`. -/
theorem v2_header_fields_not_validated_witness :
    (CarV2Header.mk (List.replicate 16 0) 51 35 (-1)).index_offset
        = i64FromLE ((carV2NegIndexOffset.drop 43).take 8) ∧
    PlainCar.new carV2NegDataOffset = .error .unexpectedEof := by
  constructor
  · exact (v2_header_fields_not_validated.1 carV2NegIndexOffset
      ⟨List.replicate 16 0, 51, 35, -1⟩ 51 (by rfl)).2.2
  · exact v2_header_fields_not_validated.2 carV2NegDataOffset
      ⟨List.replicate 16 0, -1, 0, 0⟩ 51 (by rfl) (by norm_num) (by decide)

/-- C7: a successful open reports version 2 exactly when the source begins
with the varint-framed CARv2 pragma and version 1 otherwise; the v1 header
read only ever succeeds with version 1, any decoded header with a different
version is the `Unsupported` error, and that error propagates out of
`PlainCar::new`. -/
theorem version_detection_and_v1_gate :
    (∀ (src : Bytes) (car : PlainCar), PlainCar.new src = .ok car →
      car.version = if hasV2Pragma src then 2 else 1) ∧
    (∀ (src : Bytes) (pos : Nat) (h : CarV1Header) (p : Nat),
      read_v1_header src pos = .ok (h, p) → h.version = 1) ∧
    (∀ (src : Bytes) (pos len p1 : Nat) (body : Bytes) (p2 : Nat) (h : CarV1Header),
      readUnsignedVarint src pos 10 = .ok (len, p1) →
      readExact src p1 (len % 2 ^ 64) = .ok (body, p2) →
      decodeCarV1Header body = some h → h.version ≠ 1 →
      read_v1_header src pos = .error .unsupported) ∧
    (∀ (src : Bytes) (hv2 : Option CarV2Header) (p : Nat) (e : ErrKind),
      read_v2_header src 0 = .ok (hv2, p) →
      read_v1_header src (v2Setup hv2).startPos = .error e →
      PlainCar.new src = .error e) := by
  refine ⟨?_, ?_, ?_, ?_⟩
  · intro src car hnew
    unfold PlainCar.new at hnew
    rcases ho : openScan src with e | r <;> simp only [ho] at hnew
    · cases hnew
    · by_cases hempty : (collectFirstWins r.frames).isEmpty = true
      · rw [if_pos hempty] at hnew
        cases hnew
      · rw [if_neg hempty] at hnew
        cases hnew
        unfold openScan at ho
        rcases hv : read_v2_header src 0 with e | ⟨hv2, pv⟩ <;> simp only [hv] at ho
        · cases ho
        · rcases hr1 : read_v1_header src (v2Setup hv2).startPos with e | ⟨h1, p3⟩ <;>
            simp only [hr1] at ho
          · cases ho
          · rcases hsf : scanFrames src (v2Setup hv2).limitPosition (src.length + 1) p3
              with e | frames <;> simp only [hsf] at ho
            · cases ho
            · cases ho
              cases hv2 with
              | some hdr =>
                rw [read_v2_header_some_pragma src hdr pv hv, if_pos rfl]
                rfl
              | none =>
                rw [read_v2_header_none_no_pragma src pv hv]
                rfl
  · intro src pos h p hread
    unfold read_v1_header at hread
    rcases h1 : readUnsignedVarint src pos 10 with e | ⟨len, p1⟩ <;> simp only [h1] at hread
    · cases hread
    · rcases h2 : readExact src p1 (len % 2 ^ 64) with e | ⟨body, p2⟩ <;>
        simp only [h2] at hread
      · cases hread
      · rcases h3 : decodeCarV1Header body with _ | hd <;> simp only [h3] at hread
        · cases hread
        · by_cases hver : hd.version = 1
          · rw [if_pos hver] at hread
            cases hread
            exact hver
          · rw [if_neg hver] at hread
            cases hread
  · intro src pos len p1 body p2 h h1 h2 h3 hne
    unfold read_v1_header
    simp only [h1, h2, h3, if_neg hne]
  · intro src hv2 p e hv hr1
    unfold PlainCar.new openScan
    simp only [hv, hr1]

/-- Witness for C7: version 2 on the pragma-led `carV2NegIndexOffset`,
version 1 on `carV1Ex`, and the `Unsupported` failure of
`carV1BadVersion` (whose header decodes with version 2), both at the header
read and out of `PlainCar::new`. -/
theorem version_detection_and_v1_gate_witness :
    (openedCar carV2NegIndexOffset).version = 2 ∧
    (openedCar carV1Ex).version = 1 ∧
    read_v1_header carV1BadVersion 0 = .error .unsupported ∧
    PlainCar.new carV1BadVersion = .error .unsupported := by
  refine ⟨?_, ?_, ?_, ?_⟩
  · exact (version_detection_and_v1_gate.1 carV2NegIndexOffset
      (openedCar carV2NegIndexOffset) (by rfl)).trans (by rfl)
  · exact (version_detection_and_v1_gate.1 carV1Ex (openedCar carV1Ex) (by rfl)).trans
      (by rfl)
  · exact version_detection_and_v1_gate.2.2.1 carV1BadVersion 0 26 1 (carV1HeaderBody 2)
      27 ⟨2, [cidA]⟩ (by rfl) (by rfl) (by rfl) (by decide)
  · exact version_detection_and_v1_gate.2.2.2 carV1BadVersion none 1 .unsupported
      (by rfl) (by rfl)

end Forest
